import Mathlib

/-!
Verification of the knowledge-graph evals pipeline core: the transcript
schema and extractor (src/packages/gkg-evals/pipeline/src/opencode/models.py),
the per-session statistics (src/packages/gkg-evals/pipeline/src/steps/report.py)
and the cross-run aggregation and diff/access correlation
(src/packages/gkg-evals/pipeline/src/cross_run_analysis/analysis.py).

Python floats are modelled by exact rationals (and real-valued logarithms
where the source calls math.log10); Python `round` is modelled by exact
round-half-to-even; Python exceptions are modelled by Option/Except.
-/

/-! ## Generic helpers: Python rounding, dict model, list utilities -/

/-- Round-half-to-even to an integer, the semantics of Python `round`.
Generic over the field so that it serves both exact rationals and reals. -/
def rndHE {α : Type} [LinearOrderedField α] [FloorRing α] (y : α) : ℤ :=
  if Int.fract y < 1 / 2 then ⌊y⌋
  else if 1 / 2 < Int.fract y then ⌊y⌋ + 1
  else if 2 ∣ ⌊y⌋ then ⌊y⌋ else ⌊y⌋ + 1

/-- Python `round(x, d)`: round to `d` decimal digits, half to even.
The result is an exact rational. -/
def pyRound {α : Type} [LinearOrderedField α] [FloorRing α] (d : ℕ) (x : α) : ℚ :=
  (rndHE (x * 10 ^ d) : ℚ) / 10 ^ d

/-- A Python dict with rational values, as an insertion-ordered association
list.  Python dict equality is captured by `DEq` below. -/
abbrev Dict (κ : Type) : Type := List (κ × ℚ)

/-- Lookup of a key (first occurrence), `None` when absent. -/
def dlookup {κ : Type} [DecidableEq κ] (k : κ) : Dict κ → Option ℚ
  | [] => none
  | kv :: rest => if kv.1 = k then some kv.2 else dlookup k rest

/-- Python `d.get(k, 0)`. -/
def dget {κ : Type} [DecidableEq κ] (d : Dict κ) (k : κ) : ℚ :=
  (dlookup k d).getD 0

/-- The keys of a dict, in insertion order. -/
def dkeys {κ : Type} (d : Dict κ) : List κ := d.map Prod.fst

/-- Python dict equality `==`: the same keys mapped to the same values
(insertion order is irrelevant). -/
def DEq {κ : Type} [DecidableEq κ] (d₁ d₂ : Dict κ) : Prop :=
  ∀ k, dlookup k d₁ = dlookup k d₂

/-- `d[k] = d.get(k, 0) + 1`: bump a counter key in place, append when new. -/
def dinc {κ : Type} [DecidableEq κ] : Dict κ → κ → Dict κ
  | [], k => [(k, 1)]
  | kv :: rest, k => if kv.1 = k then (kv.1, kv.2 + 1) :: rest else kv :: dinc rest k

/-- De-duplication keeping the first occurrence, as the Python
`seen`-set loop in `parse_diff_file_paths` does. -/
def dedupFirstAux {α : Type} [DecidableEq α] (seen : List α) : List α → List α
  | [] => []
  | x :: xs => if x ∈ seen then dedupFirstAux seen xs else x :: dedupFirstAux (x :: seen) xs

/-- De-duplication keeping the first occurrence. -/
def dedupFirst {α : Type} [DecidableEq α] (l : List α) : List α :=
  dedupFirstAux [] l

/-- Union of the key sets of several dicts (first-seen order stands in for
Python's unordered set; all statements below are order-insensitive). -/
def keyUnion {κ : Type} [DecidableEq κ] (ds : List (Dict κ)) : List κ :=
  dedupFirst (ds.map dkeys).flatten

/-- `{k: sum(d.get(k, 0) for d in ds) / len(ds) for k in all_keys}`. -/
def dictMean {κ : Type} [DecidableEq κ] (ds : List (Dict κ)) : Dict κ :=
  (keyUnion ds).map fun k => (k, (ds.map (dget · k)).sum / (ds.length : ℚ))

/-- `{k: sum(d.get(k, 0) for d in ds) for k in all_keys}`. -/
def dictSum {κ : Type} [DecidableEq κ] (ds : List (Dict κ)) : Dict κ :=
  (keyUnion ds).map fun k => (k, (ds.map (dget · k)).sum)

/-- Sum of a dict's values, `sum(d.values())`. -/
def dvalsSum {κ : Type} (d : Dict κ) : ℚ := (d.map Prod.snd).sum

/-! Character-list string utilities (for the diff parser, which works on
raw line text). -/

/-- Whether `s` starts with `pat`. -/
def startsWithL (pat s : List Char) : Bool :=
  match pat, s with
  | [], _ => true
  | _ :: _, [] => false
  | p :: ps, c :: cs => p == c && startsWithL ps cs

/-- Whether `pat` occurs as a contiguous substring of `s` (Python `in`). -/
def containsSubL (pat : List Char) : List Char → Bool
  | [] => startsWithL pat []
  | c :: cs => startsWithL pat (c :: cs) || containsSubL pat cs

/-- Whether `s` ends with `pat` (Python `str.endswith`). -/
def endsWithL (pat s : List Char) : Bool :=
  startsWithL pat.reverse s.reverse

/-- Python whitespace for `str.strip`. -/
def isPyWS (c : Char) : Bool :=
  c == ' ' || c == '\t' || c == '\n' || c == '\r' || c == '\x0b' || c == '\x0c'

/-- Python `str.strip()`. -/
def pyStrip (s : List Char) : List Char :=
  ((s.dropWhile isPyWS).reverse.dropWhile isPyWS).reverse

/-- Python `str.split('\n')`. -/
def splitOnNl : List Char → List (List Char)
  | [] => [[]]
  | c :: rest =>
    match splitOnNl rest with
    | [] => [[c]]
    | h :: t => if c = '\n' then [] :: h :: t else (c :: h) :: t

/-! ## Transcript schema (src/opencode/models.py)

Raw JSON records are modelled by `JValue`/`RawDict`; each pydantic model
class becomes a structure plus a `model_validate` decoder returning
`Except DecodeErr`, modelling pydantic's fatal `ValidationError`. -/

/-- A JSON value as it appears in a decoded log record. -/
inductive JValue where
  | str (s : String)
  | int (n : ℤ)
  | num (q : ℚ)
  | bool (b : Bool)
  | null
  | arr (items : List JValue)
  | obj (fields : List (String × JValue))

/-- A decoded JSON object: an insertion-ordered key/value list. -/
abbrev RawDict : Type := List (String × JValue)

/-- Key lookup in a raw record (Python `item['k']` / `'k' in item`). -/
def jlookup (k : String) : RawDict → Option JValue
  | [] => none
  | kv :: rest => if kv.1 = k then some kv.2 else jlookup k rest

/-- A fatal decode failure (pydantic `ValidationError` or the explicit
`ValueError` for a record with neither `role` nor `type`). -/
inductive DecodeErr where
  | noRoleOrType
  | missing (field : String)
  | badField (field : String)
deriving DecidableEq

/-- Required `str` field. -/
def reqStr (d : RawDict) (key : String) : Except DecodeErr String :=
  match jlookup key d with
  | some (.str s) => .ok s
  | some _ => .error (.badField key)
  | none => .error (.missing key)

/-- Required `str` field with a serialization alias; `populate_by_name=True`
accepts the alias first, then the field name. -/
def reqStrAlias (d : RawDict) (al name : String) : Except DecodeErr String :=
  match jlookup al d with
  | some (.str s) => .ok s
  | some _ => .error (.badField al)
  | none => reqStr d name

/-- Optional `str` field (missing or `null` decodes to `None`). -/
def optStr (d : RawDict) (key : String) : Except DecodeErr (Option String) :=
  match jlookup key d with
  | some (.str s) => .ok (some s)
  | some .null => .ok none
  | some _ => .error (.badField key)
  | none => .ok none

/-- Optional aliased `str` field. -/
def optStrAlias (d : RawDict) (al name : String) : Except DecodeErr (Option String) :=
  match jlookup al d with
  | some (.str s) => .ok (some s)
  | some .null => .ok none
  | some _ => .error (.badField al)
  | none => optStr d name

/-- Required `int` field. -/
def reqInt (d : RawDict) (key : String) : Except DecodeErr ℤ :=
  match jlookup key d with
  | some (.int n) => .ok n
  | some _ => .error (.badField key)
  | none => .error (.missing key)

/-- Optional `int` field. -/
def optInt (d : RawDict) (key : String) : Except DecodeErr (Option ℤ) :=
  match jlookup key d with
  | some (.int n) => .ok (some n)
  | some .null => .ok none
  | some _ => .error (.badField key)
  | none => .ok none

/-- Required `float` field (pydantic coerces `int` to `float`). -/
def reqFloat (d : RawDict) (key : String) : Except DecodeErr ℚ :=
  match jlookup key d with
  | some (.num q) => .ok q
  | some (.int n) => .ok (n : ℚ)
  | some _ => .error (.badField key)
  | none => .error (.missing key)

/-- Optional `bool` field. -/
def optBool (d : RawDict) (key : String) : Except DecodeErr (Option Bool) :=
  match jlookup key d with
  | some (.bool b) => .ok (some b)
  | some .null => .ok none
  | some _ => .error (.badField key)
  | none => .ok none

/-- A `Literal[...]` field: must be present and equal to `val`. -/
def reqLit (d : RawDict) (key val : String) : Except DecodeErr Unit :=
  match jlookup key d with
  | some (.str s) => if s = val then .ok () else .error (.badField key)
  | some _ => .error (.badField key)
  | none => .error (.missing key)

/-- Required nested object field. -/
def reqObj (d : RawDict) (key : String) : Except DecodeErr RawDict :=
  match jlookup key d with
  | some (.obj o) => .ok o
  | some _ => .error (.badField key)
  | none => .error (.missing key)

/-- Optional nested object field. -/
def optObj (d : RawDict) (key : String) : Except DecodeErr (Option RawDict) :=
  match jlookup key d with
  | some (.obj o) => .ok (some o)
  | some .null => .ok none
  | some _ => .error (.badField key)
  | none => .ok none

/-- All-strings array content. -/
def asStrs : List JValue → Option (List String)
  | [] => some []
  | .str s :: rest => (asStrs rest).map (s :: ·)
  | _ => none

/-- Required `List[str]` field. -/
def reqStrList (d : RawDict) (key : String) : Except DecodeErr (List String) :=
  match jlookup key d with
  | some (.arr items) =>
    match asStrs items with
    | some l => .ok l
    | none => .error (.badField key)
  | some _ => .error (.badField key)
  | none => .error (.missing key)

/-- All-int-valued object content, for `Dict[str, int]` fields. -/
def asIntMap : List (String × JValue) → Option (List (String × ℤ))
  | [] => some []
  | (k, .int n) :: rest => (asIntMap rest).map ((k, n) :: ·)
  | _ => none

/-- Required `Dict[str, int]` field. -/
def reqIntMap (d : RawDict) (key : String) : Except DecodeErr (List (String × ℤ)) :=
  match jlookup key d with
  | some (.obj o) =>
    match asIntMap o with
    | some m => .ok m
    | none => .error (.badField key)
  | some _ => .error (.badField key)
  | none => .error (.missing key)

/-- Cache token counts. -/
structure CacheTokens where
  read : ℤ
  write : ℤ

/-- Token usage information. -/
structure Tokens where
  input : ℤ
  output : ℤ
  reasoning : ℤ
  cache : CacheTokens

/-- Time information for operations (`end` is a Lean keyword, hence `end_`). -/
structure TimeInfo where
  start : ℤ
  end_ : Option ℤ

/-- Message timing information. -/
structure MessageTime where
  created : ℤ
  completed : Option ℤ

/-- Path information for the message context. -/
structure PathInfo where
  cwd : String
  root : String

/-- Tool state when completed (its own structure because the tool-call
scanner exposes it). -/
structure ToolStateCompleted where
  input : RawDict
  output : String
  title : Option String
  metadata : Option RawDict
  time : List (String × ℤ)

/-- The `ToolState` union, discriminated by the `status` literal. -/
inductive ToolState where
  | pending
  | running (input : RawDict) (title : Option String) (metadata : Option RawDict)
      (time : List (String × ℤ))
  | completed (c : ToolStateCompleted)
  | error (input : RawDict) (error : String) (metadata : Option RawDict)
      (time : List (String × ℤ))

/-- Text content part. -/
structure TextPart where
  id : String
  session_id : Option String
  message_id : Option String
  text : String
  synthetic : Option Bool
  time : Option TimeInfo

/-- Reasoning content part. -/
structure ReasoningPart where
  id : String
  session_id : Option String
  message_id : Option String
  text : String
  metadata : Option RawDict
  time : TimeInfo

/-- Tool invocation part. -/
structure ToolPart where
  id : String
  session_id : Option String
  message_id : Option String
  call_id : String
  tool : String
  state : ToolState

/-- Step start marker part. -/
structure StepStartPart where
  id : String
  session_id : Option String
  message_id : Option String

/-- Step finish marker part with metrics. -/
structure StepFinishPart where
  id : String
  session_id : Option String
  message_id : Option String
  cost : ℚ
  tokens : Tokens

/-- File attachment part (the optional `source` union is kept raw,
its deep validation is not exercised by any claim). -/
structure FilePart where
  id : String
  session_id : Option String
  message_id : Option String
  mime : String
  filename : Option String
  url : String
  source : Option RawDict

/-- Agent-generated content part (optional `source` kept raw). -/
structure AgentPart where
  id : String
  session_id : Option String
  message_id : Option String
  name : String
  source : Option RawDict

/-- Snapshot part. -/
structure SnapshotPart where
  id : String
  session_id : Option String
  message_id : Option String
  snapshot : String

/-- Patch part. -/
structure PatchPart where
  id : String
  session_id : Option String
  message_id : Option String
  hash : String
  files : List String

/-- The `MessagePart` union. -/
inductive MessagePart where
  | text (p : TextPart)
  | reasoning (p : ReasoningPart)
  | tool (p : ToolPart)
  | stepStart (p : StepStartPart)
  | stepFinish (p : StepFinishPart)
  | file (p : FilePart)
  | agent (p : AgentPart)
  | snapshot (p : SnapshotPart)
  | patch (p : PatchPart)

/-- User message information. -/
structure UserMessage where
  id : String
  session_id : String
  time : MessageTime

/-- Assistant message information (the `error` union is kept as its
`{name, data}` shape, the catch-all `UnknownError` arm). -/
structure AssistantMessage where
  id : String
  session_id : String
  time : MessageTime
  error : Option (String × RawDict)
  system : List String
  model_id : String
  provider_id : String
  mode : String
  path : PathInfo
  summary : Option Bool
  cost : ℚ
  tokens : Tokens

/-- `MessageOrPart`: the messages array holds message objects, part objects
and raw dicts that were kept unparsed. -/
inductive MessageOrPart where
  | user (m : UserMessage)
  | assistant (m : AssistantMessage)
  | part (p : MessagePart)
  | raw (d : RawDict)

/-- Decoder for `CacheTokens`. -/
def CacheTokens.model_validate (d : RawDict) : Except DecodeErr CacheTokens := do
  let r ← reqInt d ("read")
  let w ← reqInt d ("write")
  return ⟨r, w⟩

/-- Decoder for `Tokens`. -/
def Tokens.model_validate (d : RawDict) : Except DecodeErr Tokens := do
  let i ← reqInt d ("input")
  let o ← reqInt d ("output")
  let r ← reqInt d ("reasoning")
  let co ← reqObj d ("cache")
  let c ← CacheTokens.model_validate co
  return ⟨i, o, r, c⟩

/-- Decoder for `TimeInfo`. -/
def TimeInfo.model_validate (d : RawDict) : Except DecodeErr TimeInfo := do
  let s ← reqInt d ("start")
  let e ← optInt d ("end")
  return ⟨s, e⟩

/-- Decoder for `MessageTime`. -/
def MessageTime.model_validate (d : RawDict) : Except DecodeErr MessageTime := do
  let c ← reqInt d ("created")
  let e ← optInt d ("completed")
  return ⟨c, e⟩

/-- Decoder for `PathInfo`. -/
def PathInfo.model_validate (d : RawDict) : Except DecodeErr PathInfo := do
  let c ← reqStr d ("cwd")
  let r ← reqStr d ("root")
  return ⟨c, r⟩

/-- Decoder for `ToolStateCompleted`. -/
def ToolStateCompleted.model_validate (d : RawDict) : Except DecodeErr ToolStateCompleted := do
  let i ← reqObj d ("input")
  let o ← reqStr d ("output")
  let t ← optStr d ("title")
  let m ← optObj d ("metadata")
  let tm ← reqIntMap d ("time")
  return ⟨i, o, t, m, tm⟩

/-- Decoder for the `ToolState` union, dispatching on the `status` literal. -/
def ToolState.model_validate (d : RawDict) : Except DecodeErr ToolState := do
  let st ← reqStr d ("status")
  match st with
  | "pending" => return .pending
  | "running" => do
    let i ← reqObj d ("input")
    let t ← optStr d ("title")
    let m ← optObj d ("metadata")
    let tm ← reqIntMap d ("time")
    return .running i t m tm
  | "completed" => do
    let c ← ToolStateCompleted.model_validate d
    return .completed c
  | "error" => do
    let i ← reqObj d ("input")
    let e ← reqStr d ("error")
    let m ← optObj d ("metadata")
    let tm ← reqIntMap d ("time")
    return .error i e m tm
  | _ => .error (.badField ("status"))

/-- The shared `PartBase` fields: required `id`, optional aliased ids. -/
def partBase (d : RawDict) : Except DecodeErr (String × Option String × Option String) := do
  let i ← reqStr d ("id")
  let s ← optStrAlias d ("sessionID") ("session_id")
  let m ← optStrAlias d ("messageID") ("message_id")
  return (i, s, m)

/-- Decoder for `TextPart`. -/
def TextPart.model_validate (d : RawDict) : Except DecodeErr TextPart := do
  let (i, sid, mid) ← partBase d
  let t ← reqStr d ("text")
  let sy ← optBool d ("synthetic")
  let tobj ← optObj d ("time")
  let ti ← match tobj with
    | some o => do
      let v ← TimeInfo.model_validate o
      pure (some v)
    | none => pure none
  return ⟨i, sid, mid, t, sy, ti⟩

/-- Decoder for `ReasoningPart`. -/
def ReasoningPart.model_validate (d : RawDict) : Except DecodeErr ReasoningPart := do
  let (i, sid, mid) ← partBase d
  let t ← reqStr d ("text")
  let m ← optObj d ("metadata")
  let tobj ← reqObj d ("time")
  let ti ← TimeInfo.model_validate tobj
  return ⟨i, sid, mid, t, m, ti⟩

/-- Decoder for `ToolPart`. -/
def ToolPart.model_validate (d : RawDict) : Except DecodeErr ToolPart := do
  let (i, sid, mid) ← partBase d
  let c ← reqStrAlias d ("callID") ("call_id")
  let t ← reqStr d ("tool")
  let so ← reqObj d ("state")
  let st ← ToolState.model_validate so
  return ⟨i, sid, mid, c, t, st⟩

/-- Decoder for `StepStartPart`. -/
def StepStartPart.model_validate (d : RawDict) : Except DecodeErr StepStartPart := do
  let (i, sid, mid) ← partBase d
  return ⟨i, sid, mid⟩

/-- Decoder for `StepFinishPart`. -/
def StepFinishPart.model_validate (d : RawDict) : Except DecodeErr StepFinishPart := do
  let (i, sid, mid) ← partBase d
  let c ← reqFloat d ("cost")
  let tobj ← reqObj d ("tokens")
  let tk ← Tokens.model_validate tobj
  return ⟨i, sid, mid, c, tk⟩

/-- Decoder for `FilePart`. -/
def FilePart.model_validate (d : RawDict) : Except DecodeErr FilePart := do
  let (i, sid, mid) ← partBase d
  let m ← reqStr d ("mime")
  let f ← optStr d ("filename")
  let u ← reqStr d ("url")
  let s ← optObj d ("source")
  return ⟨i, sid, mid, m, f, u, s⟩

/-- Decoder for `AgentPart`. -/
def AgentPart.model_validate (d : RawDict) : Except DecodeErr AgentPart := do
  let (i, sid, mid) ← partBase d
  let n ← reqStr d ("name")
  let s ← optObj d ("source")
  return ⟨i, sid, mid, n, s⟩

/-- Decoder for `SnapshotPart`. -/
def SnapshotPart.model_validate (d : RawDict) : Except DecodeErr SnapshotPart := do
  let (i, sid, mid) ← partBase d
  let s ← reqStr d ("snapshot")
  return ⟨i, sid, mid, s⟩

/-- Decoder for `PatchPart`. -/
def PatchPart.model_validate (d : RawDict) : Except DecodeErr PatchPart := do
  let (i, sid, mid) ← partBase d
  let h ← reqStr d ("hash")
  let f ← reqStrList d ("files")
  return ⟨i, sid, mid, h, f⟩

/-- Decoder for `UserMessage`. -/
def UserMessage.model_validate (d : RawDict) : Except DecodeErr UserMessage := do
  let i ← reqStr d ("id")
  let _ ← reqLit d ("role") ("user")
  let s ← reqStrAlias d ("sessionID") ("session_id")
  let tobj ← reqObj d ("time")
  let t ← MessageTime.model_validate tobj
  return ⟨i, s, t⟩

/-- Decoder for the optional assistant `error` union (every arm needs a
`name` string and a `data` object; `UnknownError` is the catch-all). -/
def optMsgError (d : RawDict) : Except DecodeErr (Option (String × RawDict)) :=
  match jlookup ("error") d with
  | some (.obj o) => do
    let n ← reqStr o ("name")
    let dt ← reqObj o ("data")
    return some (n, dt)
  | some .null => .ok none
  | some _ => .error (.badField ("error"))
  | none => .ok none

/-- Decoder for `AssistantMessage`. -/
def AssistantMessage.model_validate (d : RawDict) : Except DecodeErr AssistantMessage := do
  let i ← reqStr d ("id")
  let _ ← reqLit d ("role") ("assistant")
  let s ← reqStrAlias d ("sessionID") ("session_id")
  let tobj ← reqObj d ("time")
  let t ← MessageTime.model_validate tobj
  let er ← optMsgError d
  let sys ← reqStrList d ("system")
  let mo ← reqStrAlias d ("modelID") ("model_id")
  let pr ← reqStrAlias d ("providerID") ("provider_id")
  let md ← reqStr d ("mode")
  let po ← reqObj d ("path")
  let p ← PathInfo.model_validate po
  let su ← optBool d ("summary")
  let c ← reqFloat d ("cost")
  let tko ← reqObj d ("tokens")
  let tk ← Tokens.model_validate tko
  return ⟨i, s, t, er, sys, mo, pr, md, p, su, c, tk⟩

/-- The recognized part kinds: the dispatch table of
`parse_message_or_part`'s `type` branch. -/
def partValidators (s : String) : Option (RawDict → Except DecodeErr MessagePart) :=
  match s with
  | "text" => some fun d => MessagePart.text <$> TextPart.model_validate d
  | "reasoning" => some fun d => MessagePart.reasoning <$> ReasoningPart.model_validate d
  | "tool" => some fun d => MessagePart.tool <$> ToolPart.model_validate d
  | "step-start" => some fun d => MessagePart.stepStart <$> StepStartPart.model_validate d
  | "step-finish" => some fun d => MessagePart.stepFinish <$> StepFinishPart.model_validate d
  | "file" => some fun d => MessagePart.file <$> FilePart.model_validate d
  | "agent" => some fun d => MessagePart.agent <$> AgentPart.model_validate d
  | "snapshot" => some fun d => MessagePart.snapshot <$> SnapshotPart.model_validate d
  | "patch" => some fun d => MessagePart.patch <$> PatchPart.model_validate d
  | _ => none

/-- `parse_message_or_part`: dispatch on `role`, else on `type`; an unknown
`role` value or an unrecognized `type` value keeps the raw dict (non-fatal);
a dict with neither `role` nor `type` raises `ValueError`; a recognized
`type` whose decoder fails re-raises the decode error. -/
def parse_message_or_part (d : RawDict) : Except DecodeErr MessageOrPart :=
  match jlookup ("role") d with
  | some (.str r) =>
    if r = ("user") then MessageOrPart.user <$> UserMessage.model_validate d
    else if r = ("assistant") then MessageOrPart.assistant <$> AssistantMessage.model_validate d
    else .ok (.raw d)
  | some _ => .ok (.raw d)
  | none =>
    match jlookup ("type") d with
    | some (.str s) =>
      match partValidators s with
      | some f => MessageOrPart.part <$> f d
      | none => .ok (.raw d)
    | some _ => .ok (.raw d)
    | none => .error .noRoleOrType

/-- `extract_assistant_messages`: keep exactly the `AssistantMessage` items. -/
def extract_assistant_messages (messages : List MessageOrPart) : List AssistantMessage :=
  messages.filterMap fun item =>
    match item with
    | .assistant m => some m
    | _ => none

/-- `extract_user_messages`: keep exactly the `UserMessage` items. -/
def extract_user_messages (messages : List MessageOrPart) : List UserMessage :=
  messages.filterMap fun item =>
    match item with
    | .user m => some m
    | _ => none

/-- `extract_parts`: keep every item that is not an assistant or user
message, unchanged (typed parts and raw dicts alike). -/
def extract_parts (messages : List MessageOrPart) : List MessageOrPart :=
  messages.filter fun item =>
    match item with
    | .assistant _ => false
    | .user _ => false
    | _ => true

/-- The lightweight `{tool, state}` view of a completed tool call. -/
structure ToolCallView where
  tool : String
  state : ToolStateCompleted

/-- Modelled from the spec: `extract_tool_calls` is imported from
`src.opencode.models` by the cross-run analysis, but its definition is not
among the repository's source files under src/; the spec specifies it
"returns, for every ToolCallPart whose state is Completed, a lightweight
view of {tool_name, state}". -/
def extract_tool_calls (messages : List MessageOrPart) : List ToolCallView :=
  messages.filterMap fun item =>
    match item with
    | .part (.tool p) =>
      match p.state with
      | .completed c => some ⟨p.tool, c⟩
      | _ => none
    | _ => none

/-! ## Session data and per-session statistics (src/steps/report.py,
src/opencode/opencode.py, src/harness/swe_bench.py) -/

/-- A SWE-bench fixture's identity (the mutable repo/worktree paths are
filesystem state outside this model). -/
structure SweBenchFixtureMetadata where
  org : String
  repo : String
  instance_id : String
  base_commit : String
  problem_statement : String

/-- One produced patch. -/
structure SweBenchPatch where
  instance_id : String
  model_name_or_path : String
  model_patch : String

/-- One agent run (`OpencodeRunSessionData`); the diff text is carried as
`patch.model_patch`, and `file_access_order`/`patch_paths` are derived
during cross-run analysis. -/
structure OpencodeRunSessionData where
  session_id : String
  fixture : SweBenchFixtureMetadata
  patch : SweBenchPatch
  messages : List MessageOrPart
  killed : Bool
  killed_reason : String
  file_access_order : List (List Char)
  patch_paths : List (List Char)

/-- `calculate_total_cost`: accumulate `cost` over every assistant message
and every step-finish part. -/
def calculate_total_cost (messages : List MessageOrPart) : ℚ :=
  messages.foldl
    (fun total_cost item =>
      match item with
      | .assistant m => total_cost + m.cost
      | .part (.stepFinish p) => total_cost + p.cost
      | _ => total_cost)
    0

/-- `calculate_total_tokens`: elementwise token accumulation over the same
two record kinds. -/
def calculate_total_tokens (messages : List MessageOrPart) : Tokens :=
  messages.foldl
    (fun t item =>
      match item with
      | .assistant m =>
        ⟨t.input + m.tokens.input, t.output + m.tokens.output,
         t.reasoning + m.tokens.reasoning,
         ⟨t.cache.read + m.tokens.cache.read, t.cache.write + m.tokens.cache.write⟩⟩
      | .part (.stepFinish p) =>
        ⟨t.input + p.tokens.input, t.output + p.tokens.output,
         t.reasoning + p.tokens.reasoning,
         ⟨t.cache.read + p.tokens.cache.read, t.cache.write + p.tokens.cache.write⟩⟩
      | _ => t)
    ⟨0, 0, 0, ⟨0, 0⟩⟩

/-- `getattr(part, 'type', 'unknown')`: a typed part reports its `type`
literal; a raw dict has no such attribute and reports `'unknown'`. -/
def partTypeName (item : MessageOrPart) : String :=
  match item with
  | .part (.text _) => "text"
  | .part (.reasoning _) => "reasoning"
  | .part (.tool _) => "tool"
  | .part (.stepStart _) => "step-start"
  | .part (.stepFinish _) => "step-finish"
  | .part (.file _) => "file"
  | .part (.agent _) => "agent"
  | .part (.snapshot _) => "snapshot"
  | .part (.patch _) => "patch"
  | _ => "unknown"

/-- The tool name of a tool part, for the `tools_used` counter (a raw dict
has no `type` attribute and is skipped). -/
def toolNameOf (item : MessageOrPart) : Option String :=
  match item with
  | .part (.tool p) => some p.tool
  | _ => none

/-- One entry of `timing.assistant_messages_with_timing`.  `duration_ms` is
`completed - created` guarded by Python truthiness of `completed`
(`None` and `0` are both falsy). -/
structure AMTiming where
  id : String
  created : ℤ
  completed : Option ℤ
  duration_ms : Option ℤ

/-- The `counts` block of a session's statistics. -/
structure StatCounts where
  total_items : ℕ
  assistant_messages : ℕ
  user_messages : ℕ
  message_parts : ℕ
  parts_by_type : Dict String
  tools_used : Dict String

/-- The `cost` block. -/
structure StatCost where
  total : ℚ
  per_message : ℚ

/-- The `tokens` block. -/
structure StatTokens where
  input : ℤ
  output : ℤ
  reasoning : ℤ
  cache_read : ℤ
  cache_write : ℤ
  total : ℤ

/-- The `timing` block. -/
structure StatTiming where
  assistant_messages_with_timing : List AMTiming
  total_duration_ms : ℤ

/-- `SessionStatistics` as produced by `get_session_statistics`. -/
structure SessionStatistics where
  session_id : String
  counts : StatCounts
  cost : StatCost
  tokens : StatTokens
  timing : StatTiming
  is_agg : Bool

/-- Python-truthy duration of one assistant message (`0` means falsy
`completed`, so no contribution). -/
def amDuration (m : AssistantMessage) : ℤ :=
  match m.time.completed with
  | some c => if c = 0 then 0 else c - m.time.created
  | none => 0

/-- `get_session_statistics`. -/
def get_session_statistics (session_data : OpencodeRunSessionData) : SessionStatistics :=
  let messages := session_data.messages
  let assistant_messages := extract_assistant_messages messages
  let user_messages := extract_user_messages messages
  let parts := extract_parts messages
  let part_counts := parts.foldl (fun d p => dinc d (partTypeName p)) []
  let tool_counts := parts.foldl
    (fun d p => match toolNameOf p with | some t => dinc d t | none => d) []
  let total_cost := calculate_total_cost messages
  let total_tokens := calculate_total_tokens messages
  { session_id := session_data.session_id
    counts :=
      { total_items := messages.length
        assistant_messages := assistant_messages.length
        user_messages := user_messages.length
        message_parts := parts.length
        parts_by_type := part_counts
        tools_used := tool_counts }
    cost :=
      { total := total_cost
        per_message := total_cost / (max assistant_messages.length 1 : ℚ) }
    tokens :=
      { input := total_tokens.input
        output := total_tokens.output
        reasoning := total_tokens.reasoning
        cache_read := total_tokens.cache.read
        cache_write := total_tokens.cache.write
        total := total_tokens.input + total_tokens.output + total_tokens.reasoning }
    timing :=
      { assistant_messages_with_timing := assistant_messages.map fun m =>
          { id := m.id
            created := m.time.created
            completed := m.time.completed
            duration_ms :=
              match m.time.completed with
              | some c => if c = 0 then none else some (c - m.time.created)
              | none => none }
        total_duration_ms := (assistant_messages.map amDuration).sum }
    is_agg := false }

/-! ## Diff/access correlator (src/cross_run_analysis/analysis.py) -/

/-- The literal prefix of the `diff --git a/<p1> b/<p2>` header shape. -/
def diffGitPrefix : List Char := ("diff --git a/").toList

/-- The ` b/` separator between the two paths of a `diff --git` header. -/
def bsep : List Char := (" b/").toList

/-- Lazy-group splitting for `^diff --git a/(.+?) b/(.+?)$`: the first
position at least one character in with ` b/` ahead and a nonempty
remainder yields (group 1, group 2). -/
def scanBsplit (acc : List Char) : List Char → Option (List Char × List Char)
  | [] => none
  | c :: cs =>
    if startsWithL bsep (c :: cs) && !((c :: cs).drop 3).isEmpty then
      some (acc.reverse, (c :: cs).drop 3)
    else scanBsplit (c :: acc) cs

/-- `re.match(r'^diff --git a/(.+?) b/(.+?)$', line)`. -/
def matchDiffGit (line : List Char) : Option (List Char × List Char) :=
  if startsWithL diffGitPrefix line then
    match line.drop diffGitPrefix.length with
    | [] => none
    | c :: cs => scanBsplit [c] cs
  else none

/-- `re.match(r'^\+\+\+ b/(.+?)$', line)`. -/
def matchPlusPlus (line : List Char) : Option (List Char) :=
  if startsWithL (("+++ b/").toList) line && !(line.drop 6).isEmpty then
    some (line.drop 6)
  else none

/-- `re.match(r'^--- a/(.+?)$', line)`. -/
def matchMinusMinus (line : List Char) : Option (List Char) :=
  if startsWithL (("--- a/").toList) line && !(line.drop 6).isEmpty then
    some (line.drop 6)
  else none

/-- The paths one (stripped) diff line contributes, in the source's
pattern order (the inner pattern loop does not break, but the three
shapes are mutually exclusive). -/
def lineMatches (line : List Char) : List (List Char) :=
  (match matchDiffGit line with
   | some g => [g.1, g.2]
   | none => []) ++
  (match matchPlusPlus line with
   | some g => [g]
   | none => []) ++
  (match matchMinusMinus line with
   | some g => [g]
   | none => [])

/-- `parse_diff_file_paths`: collect header paths line by line, then
de-duplicate preserving first occurrence. -/
def parse_diff_file_paths (diff_content : List Char) : List (List Char) :=
  dedupFirst (((splitOnNl diff_content).map pyStrip).flatMap lineMatches)

/-- The isolated-working-copy marker. -/
def worktreesMarker : List Char := ("/worktrees/").toList

/-- `find_matching_worktree_paths`: for each diff path in order, the first
access entry containing `/worktrees/` and ending with the diff path, at
most one match per diff path. -/
def find_matching_worktree_paths (diff_paths file_access_order : List (List Char)) :
    List (List Char) :=
  match diff_paths with
  | [] => []
  | dp :: rest =>
    match file_access_order.find?
        (fun ap => containsSubL worktreesMarker ap && endsWithL dp ap) with
    | some ap => ap :: find_matching_worktree_paths rest file_access_order
    | none => find_matching_worktree_paths rest file_access_order

/-! ## Cross-run aggregation (src/cross_run_analysis/analysis.py) -/

/-- One run-variant's aggregate metrics. -/
structure CrossRunMetadata where
  run_name : String
  avg_duration_in_minutes : ℚ
  resolved_instances_counts : Dict String
  total_tools_used : ℚ
  avg_tokens : ℚ
  avg_tools_used : ℚ
  tool_proportions : Dict String
  pass_rate : ℚ
  timeout_rate : ℚ
  tool_proportions_log : Dict String
  sum_log_proportions : ℚ
  original_proportions : Dict String
  tools_used_dict : Dict String
  pass_counts : Dict ℤ
  session_data : List OpencodeRunSessionData
  is_agg : Bool

/-- `CrossRunMetadata.avg` on a nonempty list, presented as head plus rest
(Python indexes `[0]`). -/
def CrossRunMetadata.avgNE (head : CrossRunMetadata) (rest : List CrossRunMetadata) :
    CrossRunMetadata :=
  let all := head :: rest
  let n : ℚ := (all.length : ℚ)
  { run_name := head.run_name
    avg_duration_in_minutes := (all.map (·.avg_duration_in_minutes)).sum / n
    resolved_instances_counts := dictSum (all.map (·.resolved_instances_counts))
    total_tools_used := (all.map (·.total_tools_used)).sum
    avg_tokens := (all.map (·.avg_tokens)).sum / n
    avg_tools_used := (all.map (·.avg_tools_used)).sum / n
    tool_proportions := dictMean (all.map (·.tool_proportions))
    pass_rate := (all.map (·.pass_rate)).sum / n
    timeout_rate := (all.map (·.timeout_rate)).sum / n
    tool_proportions_log := dictMean (all.map (·.tool_proportions_log))
    sum_log_proportions := (all.map (·.sum_log_proportions)).sum
    original_proportions := dictMean (all.map (·.original_proportions))
    tools_used_dict := dictMean (all.map (·.tools_used_dict))
    pass_counts := dictSum (all.map (·.pass_counts))
    session_data := (all.map (·.session_data)).flatten
    is_agg := true }

/-- `CrossRunMetadata.avg`; the empty list raises `IndexError` in the
source, modelled as `none`. -/
def CrossRunMetadata.avg : List CrossRunMetadata → Option CrossRunMetadata
  | [] => none
  | x :: xs => some (CrossRunMetadata.avgNE x xs)

/-- The per-execution `timeout_rate` computation of `analyze_cross_run`:
`round(count(killed ∧ killed_reason == "timeout") / len(session_data) * 100, 1)`.
Zero sessions make the division raise `ZeroDivisionError`, modelled as
`none`. -/
def timeout_rate_of (session_data : List OpencodeRunSessionData) : Option ℚ :=
  if session_data.length = 0 then none
  else
    some (pyRound 1
      ((session_data.countP (fun s => s.killed && s.killed_reason == ("timeout")) : ℚ) /
        (session_data.length : ℚ) * 100))

/-- `tools_used_dict.pop("invalid")`: drop the invalid-marker key. -/
def dropInvalid (d : Dict String) : Dict String :=
  d.filter fun kv => kv.1 ≠ ("invalid")

/-- `tools_used = round(sum(tools_used_dict.values()), 1)`. -/
def tools_used_of (d : Dict String) : ℚ :=
  pyRound 1 (dvalsSum d)

/-- The log-compressed per-tool values, rounded to 3 decimals:
`round(log10(v / tools_used * 100 + 1), 3)` when the proportion is
positive, else `round(0, 3)`.  A zero `tools_used` denominator raises
`ZeroDivisionError` in the source, modelled as `none`. -/
noncomputable def tool_proportions_log_of (d : Dict String) : Option (Dict String) :=
  if tools_used_of d = 0 then none
  else
    some (d.map fun kv =>
      let proportion : ℚ := kv.2 / tools_used_of d * 100
      (kv.1,
        if 0 < proportion then pyRound 3 (Real.logb 10 ((proportion : ℝ) + 1))
        else pyRound 3 ((0 : ℚ) : ℝ)))

/-- `sum_log_proportions = sum(tool_proportions_log.values())`. -/
noncomputable def sum_log_proportions_of (d : Dict String) : Option ℚ :=
  (tool_proportions_log_of d).map dvalsSum

/-- The renormalized tool proportions:
`{k: round(v / sum_log_proportions * 100, 1)}`.  A zero
`sum_log_proportions` denominator raises `ZeroDivisionError` in the
source, modelled as `none`. -/
noncomputable def tool_proportions_of (d : Dict String) : Option (Dict String) :=
  (tool_proportions_log_of d).bind fun tpl =>
    if dvalsSum tpl = 0 then none
    else some (tpl.map fun kv => (kv.1, pyRound 1 (kv.2 / dvalsSum tpl * 100)))

/-- The step-finish parts of a record list, in order (a reference
formulation for the cost/token rollups, independent of the fold in
`calculate_total_cost`/`calculate_total_tokens`). -/
def stepFinishParts (messages : List MessageOrPart) : List StepFinishPart :=
  messages.filterMap fun item =>
    match item with
    | .part (.stepFinish p) => some p
    | _ => none

/-- A concrete tools_used_dict: seven tools with counts 3, 3, 3, 19, 24,
24, 24 (total 100), chosen so that every per-tool proportion plus one is of
the form 2^a * 5^b and the log10 values reduce to the single constant
log 2 / log 10. -/
def dEx : Dict String :=
  [(("read"), 3), (("grep"), 3), (("glob"), 3), (("edit"), 19),
   (("write"), 24), (("bash"), 24), (("todowrite"), 24)]

/-- The rounded log-proportions the pipeline computes at `dEx`. -/
def tplEx : Dict String :=
  [(("read"), 301/500), (("grep"), 301/500), (("glob"), 301/500),
   (("edit"), 1301/1000), (("write"), 699/500), (("bash"), 699/500),
   (("todowrite"), 699/500)]

/-- The renormalized, 1-decimal-rounded tool proportions at `dEx`. -/
def outEx : Dict String :=
  [(("read"), 41/5), (("grep"), 41/5), (("glob"), 41/5), (("edit"), 89/5),
   (("write"), 191/10), (("bash"), 191/10), (("todowrite"), 191/10)]

/-- A minimal concrete session, distinguishable by its id. -/
def sessionStub (sid : String) : OpencodeRunSessionData :=
  { session_id := sid
    fixture := ⟨("o"), ("r"), ("i"), ("c"), ("p")⟩
    patch := ⟨("i"), ("m"), ("")⟩
    messages := []
    killed := false
    killed_reason := ("")
    file_access_order := []
    patch_paths := [] }

/-- A concrete metadata record carrying the given sessions. -/
def crmStub (rn : String) (sd : List OpencodeRunSessionData) : CrossRunMetadata :=
  { run_name := rn
    avg_duration_in_minutes := 0
    resolved_instances_counts := []
    total_tools_used := 0
    avg_tokens := 0
    avg_tools_used := 0
    tool_proportions := []
    pass_rate := 0
    timeout_rate := 0
    tool_proportions_log := []
    sum_log_proportions := 0
    original_proportions := []
    tools_used_dict := []
    pass_counts := []
    session_data := sd
    is_agg := false }

/-- Two executions of the same variant with distinct single sessions. -/
def crmA : CrossRunMetadata := crmStub ("run") [sessionStub ("s1")]

/-- The second execution of the variant. -/
def crmB : CrossRunMetadata := crmStub ("run") [sessionStub ("s2")]

/-- A session killed by the per-fixture wall-clock timeout. -/
def sessionTimeout (sid : String) : OpencodeRunSessionData :=
  { sessionStub sid with killed := true, killed_reason := ("timeout") }

/-- A session killed by a nonzero agent exit code. -/
def sessionErrorKilled (sid : String) : OpencodeRunSessionData :=
  { sessionStub sid with killed := true, killed_reason := ("error") }

/-- Four sessions, two of them timeout-killed. -/
def sessionsC6 : List OpencodeRunSessionData :=
  [sessionTimeout ("s1"), sessionTimeout ("s2"), sessionErrorKilled ("s3"), sessionStub ("s4")]

/-! ## Helper lemmas: rounding -/

/-- `rndHE` is determined on any open half-unit interval around an
integer. -/
theorem rndHE_eq_of {α : Type} [LinearOrderedField α] [FloorRing α] (m : ℤ) (y : α)
    (h1 : (m : α) - 1 / 2 < y) (h2 : y < (m : α) + 1 / 2) : rndHE y = m := by
  rcases le_or_lt (m : α) y with h | h
  · have hf : ⌊y⌋ = m := by
      rw [Int.floor_eq_iff]
      refine ⟨h, ?_⟩
      linarith
    have hfr : Int.fract y < 1 / 2 := by
      have hd : Int.fract y = y - (m : α) := by
        rw [← Int.self_sub_floor, hf]
      rw [hd]
      linarith
    unfold rndHE
    rw [if_pos hfr, hf]
  · have hf : ⌊y⌋ = m - 1 := by
      rw [Int.floor_eq_iff]
      push_cast
      constructor <;> linarith
    have hfr : 1 / 2 < Int.fract y := by
      have hd : Int.fract y = y - ((m : α) - 1) := by
        rw [← Int.self_sub_floor, hf]
        push_cast
        ring
      rw [hd]
      linarith
    unfold rndHE
    rw [if_neg (by linarith), if_pos hfr, hf]
    omega

/-- `rndHE` never strays more than one half from its argument. -/
theorem abs_rndHE_sub_le {α : Type} [LinearOrderedField α] [FloorRing α] (y : α) :
    |(rndHE y : α) - y| ≤ 1 / 2 := by
  have h0 := Int.fract_nonneg y
  have h1 := Int.fract_lt_one y
  have hd : (⌊y⌋ : α) = y - Int.fract y := by
    rw [← Int.self_sub_floor]
    ring
  unfold rndHE
  split_ifs with hc1 hc2 hc3 <;> rw [abs_le] <;> push_cast <;>
    constructor <;> linarith

/-- `pyRound` is determined on any open half-grid interval. -/
theorem pyRound_eq_of {α : Type} [LinearOrderedField α] [FloorRing α] (d : ℕ) (m : ℤ)
    (x : α) (h1 : (m : α) - 1 / 2 < x * 10 ^ d) (h2 : x * 10 ^ d < (m : α) + 1 / 2) :
    pyRound d x = (m : ℚ) / 10 ^ d := by
  unfold pyRound
  rw [rndHE_eq_of m _ h1 h2]

/-- Rounding a rational to 1 decimal moves it by at most `1/20`. -/
theorem abs_pyRound_one_sub_le (q : ℚ) : |pyRound 1 q - q| ≤ 1 / 20 := by
  have h := abs_rndHE_sub_le (α := ℚ) (q * 10 ^ 1)
  unfold pyRound
  rw [abs_le] at h ⊢
  norm_num at h ⊢
  constructor <;> linarith

/-! ## Helper lemmas: the dict model -/

/-- Lookup in a dict built by mapping a value function over a key list. -/
theorem dlookup_map_keyed {κ : Type} [DecidableEq κ] (k : κ) (ks : List κ) (f : κ → ℚ) :
    dlookup k (ks.map fun k' => (k', f k')) = if k ∈ ks then some (f k) else none := by
  induction ks with
  | nil => rfl
  | cons a rest ih =>
    by_cases hak : a = k
    · subst hak
      simp [dlookup]
    · simp only [List.map_cons, dlookup, hak, if_false, ih]
      by_cases hk : k ∈ rest
      · rw [if_pos hk, if_pos (List.mem_cons_of_mem a hk)]
      · have hn : k ∉ a :: rest := by
          intro hc
          rcases List.mem_cons.mp hc with hc | hc
          · exact hak hc.symm
          · exact hk hc
        rw [if_neg hk, if_neg hn]

/-- Membership in `dedupFirstAux`. -/
theorem mem_dedupFirstAux {α : Type} [DecidableEq α] (x : α) (seen : List α) (l : List α) :
    x ∈ dedupFirstAux seen l ↔ x ∈ l ∧ x ∉ seen := by
  induction l generalizing seen with
  | nil => simp [dedupFirstAux]
  | cons a rest ih =>
    unfold dedupFirstAux
    by_cases ha : a ∈ seen
    · rw [if_pos ha, ih]
      constructor
      · rintro ⟨hm, hs⟩
        exact ⟨List.mem_cons_of_mem a hm, hs⟩
      · rintro ⟨hm, hs⟩
        rcases List.mem_cons.mp hm with h | h
        · subst h
          exact absurd ha hs
        · exact ⟨h, hs⟩
    · rw [if_neg ha]
      constructor
      · intro h
        rcases List.mem_cons.mp h with h | h
        · subst h
          exact ⟨List.mem_cons_self _ _, ha⟩
        · rcases (ih (a :: seen)).mp h with ⟨hm, hs⟩
          exact ⟨List.mem_cons_of_mem a hm, fun hc => hs (List.mem_cons_of_mem a hc)⟩
      · rintro ⟨hm, hs⟩
        rcases List.mem_cons.mp hm with h | h
        · subst h
          exact List.mem_cons_self _ _
        · by_cases hxa : x = a
          · subst hxa
            exact List.mem_cons_self _ _
          · refine List.mem_cons_of_mem a ((ih (a :: seen)).mpr ⟨h, fun hc => ?_⟩)
            rcases List.mem_cons.mp hc with hc | hc
            · exact hxa hc
            · exact hs hc

/-- `dedupFirst` preserves membership. -/
theorem mem_dedupFirst {α : Type} [DecidableEq α] (x : α) (l : List α) :
    x ∈ dedupFirst l ↔ x ∈ l := by
  rw [dedupFirst, mem_dedupFirstAux]
  simp

/-- Membership in the union of key sets. -/
theorem mem_keyUnion {κ : Type} [DecidableEq κ] (k : κ) (ds : List (Dict κ)) :
    k ∈ keyUnion ds ↔ ∃ d ∈ ds, k ∈ dkeys d := by
  rw [keyUnion, mem_dedupFirst, List.mem_flatten]
  constructor
  · rintro ⟨l, hl, hk⟩
    rcases List.mem_map.mp hl with ⟨d, hd, rfl⟩
    exact ⟨d, hd, hk⟩
  · rintro ⟨d, hd, hk⟩
    exact ⟨dkeys d, List.mem_map.mpr ⟨d, hd, rfl⟩, hk⟩

/-- Absent keys are exactly the `none` lookups. -/
theorem dlookup_eq_none_iff {κ : Type} [DecidableEq κ] (k : κ) (d : Dict κ) :
    dlookup k d = none ↔ k ∉ dkeys d := by
  induction d with
  | nil => simp [dlookup, dkeys]
  | cons kv rest ih =>
    unfold dlookup
    by_cases h : kv.1 = k
    · simp [h, dkeys]
    · simp only [h, if_false, ih, dkeys, List.map_cons, List.mem_cons]
      constructor
      · intro hn hc
        rcases hc with hc | hc
        · exact h hc.symm
        · exact hn hc
      · intro hn hm
        exact hn (Or.inr hm)

/-- A `some` lookup yields the `get`-with-default value. -/
theorem dget_eq_of_dlookup {κ : Type} [DecidableEq κ] (k : κ) (d : Dict κ) (v : ℚ)
    (h : dlookup k d = some v) : dget d k = v := by
  rw [dget, h]
  rfl

/-- Averaging a single dict returns it (up to Python dict equality). -/
theorem DEq_dictMean_single {κ : Type} [DecidableEq κ] (d : Dict κ) :
    DEq (dictMean [d]) d := by
  intro k
  rw [dictMean, dlookup_map_keyed]
  cases h : dlookup k d with
  | none =>
    have hn : k ∉ keyUnion [d] := by
      intro hc
      rcases (mem_keyUnion k [d]).mp hc with ⟨d', hd', hk⟩
      have hdd : d' = d := List.mem_singleton.mp hd'
      rw [hdd] at hk
      exact (dlookup_eq_none_iff k d).mp h hk
    rw [if_neg hn]
  | some v =>
    have hk : k ∈ dkeys d := by
      by_contra hc
      rw [← dlookup_eq_none_iff k d] at hc
      rw [h] at hc
      exact Option.noConfusion hc
    rw [if_pos ((mem_keyUnion k [d]).mpr ⟨d, List.mem_singleton.mpr rfl, hk⟩)]
    simp only [List.map_cons, List.map_nil, List.sum_cons, List.sum_nil, List.length_cons,
      List.length_nil, add_zero]
    rw [dget_eq_of_dlookup k d v h]
    norm_num

/-- Summing a single dict returns it (up to Python dict equality). -/
theorem DEq_dictSum_single {κ : Type} [DecidableEq κ] (d : Dict κ) :
    DEq (dictSum [d]) d := by
  intro k
  rw [dictSum, dlookup_map_keyed]
  cases h : dlookup k d with
  | none =>
    have hn : k ∉ keyUnion [d] := by
      intro hc
      rcases (mem_keyUnion k [d]).mp hc with ⟨d', hd', hk⟩
      have hdd : d' = d := List.mem_singleton.mp hd'
      rw [hdd] at hk
      exact (dlookup_eq_none_iff k d).mp h hk
    rw [if_neg hn]
  | some v =>
    have hk : k ∈ dkeys d := by
      by_contra hc
      rw [← dlookup_eq_none_iff k d] at hc
      rw [h] at hc
      exact Option.noConfusion hc
    rw [if_pos ((mem_keyUnion k [d]).mpr ⟨d, List.mem_singleton.mpr rfl, hk⟩)]
    simp only [List.map_cons, List.map_nil, List.sum_cons, List.sum_nil, List.length_cons,
      List.length_nil, add_zero]
    rw [dget_eq_of_dlookup k d v h]

/-- Key-union membership for a two-dict list. -/
theorem mem_keyUnion_pair {κ : Type} [DecidableEq κ] (k : κ) (a b : Dict κ) :
    k ∈ keyUnion [a, b] ↔ k ∈ dkeys a ∨ k ∈ dkeys b := by
  rw [mem_keyUnion]
  constructor
  · rintro ⟨d, hd, hk⟩
    rcases List.mem_cons.mp hd with rfl | hd
    · exact Or.inl hk
    · rcases List.mem_singleton.mp hd with rfl
      exact Or.inr hk
  · rintro (hk | hk)
    · exact ⟨a, List.mem_cons_self _ _, hk⟩
    · exact ⟨b, List.mem_cons_of_mem _ (List.mem_singleton.mpr rfl), hk⟩

/-- Averaging two dicts is order-independent (up to Python dict equality). -/
theorem DEq_dictMean_pair_comm {κ : Type} [DecidableEq κ] (a b : Dict κ) :
    DEq (dictMean [a, b]) (dictMean [b, a]) := by
  intro k
  rw [dictMean, dictMean, dlookup_map_keyed, dlookup_map_keyed]
  by_cases h : k ∈ dkeys a ∨ k ∈ dkeys b
  · rw [if_pos ((mem_keyUnion_pair k a b).mpr h),
      if_pos ((mem_keyUnion_pair k b a).mpr h.symm)]
    congr 1
    simp only [List.map_cons, List.map_nil, List.sum_cons, List.sum_nil, List.length_cons,
      List.length_nil]
    ring
  · rw [if_neg (fun hc => h ((mem_keyUnion_pair k a b).mp hc)),
      if_neg (fun hc => h ((mem_keyUnion_pair k b a).mp hc).symm)]

/-- Summing two dicts is order-independent (up to Python dict equality). -/
theorem DEq_dictSum_pair_comm {κ : Type} [DecidableEq κ] (a b : Dict κ) :
    DEq (dictSum [a, b]) (dictSum [b, a]) := by
  intro k
  rw [dictSum, dictSum, dlookup_map_keyed, dlookup_map_keyed]
  by_cases h : k ∈ dkeys a ∨ k ∈ dkeys b
  · rw [if_pos ((mem_keyUnion_pair k a b).mpr h),
      if_pos ((mem_keyUnion_pair k b a).mpr h.symm)]
    congr 1
    simp only [List.map_cons, List.map_nil, List.sum_cons, List.sum_nil]
    ring
  · rw [if_neg (fun hc => h ((mem_keyUnion_pair k a b).mp hc)),
      if_neg (fun hc => h ((mem_keyUnion_pair k b a).mp hc).symm)]

/-- Claim C2: averaging a single `CrossRunMetadata` reproduces it in every
field (dict-valued fields up to Python dict equality `==`, which is what
`avg([x]) == x` compares), except that the result's `is_agg` flag is
`True`. -/
theorem claim_C2_avg_singleton (x : CrossRunMetadata) :
    CrossRunMetadata.avg [x] = some (CrossRunMetadata.avgNE x []) ∧
    (CrossRunMetadata.avgNE x []).run_name = x.run_name ∧
    (CrossRunMetadata.avgNE x []).pass_rate = x.pass_rate ∧
    (CrossRunMetadata.avgNE x []).timeout_rate = x.timeout_rate ∧
    (CrossRunMetadata.avgNE x []).avg_duration_in_minutes = x.avg_duration_in_minutes ∧
    (CrossRunMetadata.avgNE x []).avg_tokens = x.avg_tokens ∧
    (CrossRunMetadata.avgNE x []).avg_tools_used = x.avg_tools_used ∧
    (CrossRunMetadata.avgNE x []).total_tools_used = x.total_tools_used ∧
    (CrossRunMetadata.avgNE x []).sum_log_proportions = x.sum_log_proportions ∧
    DEq (CrossRunMetadata.avgNE x []).tool_proportions x.tool_proportions ∧
    DEq (CrossRunMetadata.avgNE x []).tool_proportions_log x.tool_proportions_log ∧
    DEq (CrossRunMetadata.avgNE x []).original_proportions x.original_proportions ∧
    DEq (CrossRunMetadata.avgNE x []).tools_used_dict x.tools_used_dict ∧
    DEq (CrossRunMetadata.avgNE x []).resolved_instances_counts x.resolved_instances_counts ∧
    DEq (CrossRunMetadata.avgNE x []).pass_counts x.pass_counts ∧
    (CrossRunMetadata.avgNE x []).session_data = x.session_data ∧
    (CrossRunMetadata.avgNE x []).is_agg = true := by
  refine ⟨rfl, rfl, ?_, ?_, ?_, ?_, ?_, ?_, ?_,
    DEq_dictMean_single _, DEq_dictMean_single _, DEq_dictMean_single _,
    DEq_dictMean_single _, DEq_dictSum_single _, DEq_dictSum_single _, ?_, rfl⟩
  all_goals simp [CrossRunMetadata.avgNE]

/-- Claim C3 counterexample: with two same-named executions carrying
distinct sessions, `avg([a,b])` and `avg([b,a])` differ — their
`session_data` lists are the two concatenation orders. -/
theorem claim_C3_counterexample :
    crmA.run_name = crmB.run_name ∧
    (CrossRunMetadata.avg [crmA, crmB]).map
        (fun m => m.session_data.map (fun s => s.session_id)) = some [("s1"), ("s2")] ∧
    (CrossRunMetadata.avg [crmB, crmA]).map
        (fun m => m.session_data.map (fun s => s.session_id)) = some [("s2"), ("s1")] ∧
    CrossRunMetadata.avg [crmA, crmB] ≠ CrossRunMetadata.avg [crmB, crmA] := by
  refine ⟨rfl, rfl, rfl, ?_⟩
  intro h
  have h2 := congrArg
    (fun o : Option CrossRunMetadata =>
      o.map (fun m => m.session_data.map (fun s => s.session_id))) h
  have h3 : some [("s1" : String), ("s2" : String)] =
      some [("s2" : String), ("s1" : String)] := h2
  have h4 := Option.some.inj h3
  have h5 : ("s1" : String) = ("s2" : String) := (List.cons.injEq _ _ _ _ ▸ h4).1
  exact absurd h5 (by decide)

/-- Claim C3 (amended): for two executions of the same run-variant name,
`avg([a,b])` and `avg([b,a])` agree in `run_name`, every scalar field, every
dict-valued field (up to Python dict equality) and `is_agg` — but not in
`session_data`, which is concatenated in argument order (`a.session_data ++
b.session_data` versus `b.session_data ++ a.session_data`), so the results
are equal only up to permutation of `session_data`. -/
theorem claim_C3_amended (a b : CrossRunMetadata) (h : a.run_name = b.run_name) :
    (CrossRunMetadata.avgNE a [b]).run_name = (CrossRunMetadata.avgNE b [a]).run_name ∧
    (CrossRunMetadata.avgNE a [b]).pass_rate = (CrossRunMetadata.avgNE b [a]).pass_rate ∧
    (CrossRunMetadata.avgNE a [b]).timeout_rate = (CrossRunMetadata.avgNE b [a]).timeout_rate ∧
    (CrossRunMetadata.avgNE a [b]).avg_duration_in_minutes =
      (CrossRunMetadata.avgNE b [a]).avg_duration_in_minutes ∧
    (CrossRunMetadata.avgNE a [b]).avg_tokens = (CrossRunMetadata.avgNE b [a]).avg_tokens ∧
    (CrossRunMetadata.avgNE a [b]).avg_tools_used =
      (CrossRunMetadata.avgNE b [a]).avg_tools_used ∧
    (CrossRunMetadata.avgNE a [b]).total_tools_used =
      (CrossRunMetadata.avgNE b [a]).total_tools_used ∧
    (CrossRunMetadata.avgNE a [b]).sum_log_proportions =
      (CrossRunMetadata.avgNE b [a]).sum_log_proportions ∧
    DEq (CrossRunMetadata.avgNE a [b]).tool_proportions
      (CrossRunMetadata.avgNE b [a]).tool_proportions ∧
    DEq (CrossRunMetadata.avgNE a [b]).tool_proportions_log
      (CrossRunMetadata.avgNE b [a]).tool_proportions_log ∧
    DEq (CrossRunMetadata.avgNE a [b]).original_proportions
      (CrossRunMetadata.avgNE b [a]).original_proportions ∧
    DEq (CrossRunMetadata.avgNE a [b]).tools_used_dict
      (CrossRunMetadata.avgNE b [a]).tools_used_dict ∧
    DEq (CrossRunMetadata.avgNE a [b]).resolved_instances_counts
      (CrossRunMetadata.avgNE b [a]).resolved_instances_counts ∧
    DEq (CrossRunMetadata.avgNE a [b]).pass_counts
      (CrossRunMetadata.avgNE b [a]).pass_counts ∧
    (CrossRunMetadata.avgNE a [b]).is_agg = (CrossRunMetadata.avgNE b [a]).is_agg ∧
    (CrossRunMetadata.avgNE a [b]).session_data = a.session_data ++ b.session_data ∧
    (CrossRunMetadata.avgNE b [a]).session_data = b.session_data ++ a.session_data := by
  refine ⟨h, ?_, ?_, ?_, ?_, ?_, ?_, ?_,
    DEq_dictMean_pair_comm _ _, DEq_dictMean_pair_comm _ _, DEq_dictMean_pair_comm _ _,
    DEq_dictMean_pair_comm _ _, DEq_dictSum_pair_comm _ _, DEq_dictSum_pair_comm _ _,
    rfl, ?_, ?_⟩
  all_goals simp [CrossRunMetadata.avgNE]
  all_goals ring

/-- Claim C6: the timeout rate is `round(100 * #(killed ∧ reason=="timeout")
/ #sessions, 1)`; an execution with zero sessions yields no value (the
unguarded division raises), never a silent number; and 2 timeout-killed
sessions out of 4 give exactly 50.0. -/
theorem claim_C6_timeout_rate :
    (∀ sd : List OpencodeRunSessionData, sd ≠ [] →
      timeout_rate_of sd = some (pyRound 1
        (100 * (sd.countP (fun s => s.killed && s.killed_reason == ("timeout")) : ℚ) /
          (sd.length : ℚ)))) ∧
    (∀ sd : List OpencodeRunSessionData, timeout_rate_of sd = none ↔ sd = []) ∧
    timeout_rate_of sessionsC6 = some 50 := by
  refine ⟨?_, ?_, ?_⟩
  · intro sd hsd
    rw [timeout_rate_of, if_neg (fun hc => hsd (List.length_eq_zero.mp hc))]
    congr 1
    ring_nf
  · intro sd
    constructor
    · intro h
      by_cases hl : sd.length = 0
      · exact List.length_eq_zero.mp hl
      · rw [timeout_rate_of, if_neg hl] at h
        exact Option.noConfusion h
    · rintro rfl
      rfl
  · have hcn : sessionsC6.countP (fun s => s.killed && s.killed_reason == ("timeout")) = 2 := by
      rfl
    have hln : sessionsC6.length = 4 := by rfl
    have hne : ¬sessionsC6.length = 0 := by rw [hln]; decide
    rw [timeout_rate_of, if_neg hne]
    have harg : ((sessionsC6.countP (fun s => s.killed && s.killed_reason == ("timeout"))) : ℚ) /
        (sessionsC6.length : ℚ) * 100 = 50 := by
      rw [hcn, hln]
      norm_num
    rw [harg]
    have h50 : pyRound 1 (50 : ℚ) = ((500 : ℤ) : ℚ) / 10 ^ 1 :=
      pyRound_eq_of 1 500 (50 : ℚ) (by norm_num) (by norm_num)
    rw [h50]
    norm_num

/-- Witness for the amended C3 statement at the concrete pair. -/
theorem claim_C3_amended_witness :
    crmA.run_name = crmB.run_name ∧
    (CrossRunMetadata.avgNE crmA [crmB]).run_name =
      (CrossRunMetadata.avgNE crmB [crmA]).run_name :=
  ⟨rfl, (claim_C3_amended crmA crmB rfl).1⟩

/-! ## Helper lemmas: per-session statistics -/

/-- A filtered-and-mapped list with a one-sided inverse is a sublist of the
original. -/
theorem map_filterMap_sublist {α β : Type} (f : α → Option β) (g : β → α)
    (h : ∀ a b, f a = some b → g b = a) (l : List α) :
    ((l.filterMap f).map g).Sublist l := by
  induction l with
  | nil => simp
  | cons a rest ih =>
    cases hfa : f a with
    | none =>
      rw [List.filterMap_cons_none hfa]
      exact ih.cons a
    | some b =>
      rw [List.filterMap_cons_some hfa, List.map_cons, h a b hfa]
      exact ih.cons₂ a

/-- The generic accumulation of the two cost/token-bearing record kinds,
as a fold with explicit accumulator. -/
theorem foldl_two_kind_sum {M : Type} [AddCommMonoid M] (fa : AssistantMessage → M)
    (fs : StepFinishPart → M) (messages : List MessageOrPart) : ∀ acc : M,
    messages.foldl
      (fun t item =>
        match item with
        | .assistant m => t + fa m
        | .part (.stepFinish p) => t + fs p
        | _ => t)
      acc =
    acc + ((extract_assistant_messages messages).map fa).sum +
      ((stepFinishParts messages).map fs).sum := by
  induction messages with
  | nil =>
    intro acc
    simp [extract_assistant_messages, stepFinishParts]
  | cons x rest ih =>
    intro acc
    rcases x with m | m | p | d
    · simp only [List.foldl_cons, ih, extract_assistant_messages, stepFinishParts,
        List.filterMap_cons, List.map_cons, List.sum_cons]
    · simp only [List.foldl_cons, ih, extract_assistant_messages, stepFinishParts,
        List.filterMap_cons, List.map_cons, List.sum_cons]
      abel
    · rcases p with p | p | p | p | p | p | p | p | p <;>
        simp only [List.foldl_cons, ih, extract_assistant_messages, stepFinishParts,
          List.filterMap_cons, List.map_cons, List.sum_cons]
      all_goals abel
    · simp only [List.foldl_cons, ih, extract_assistant_messages, stepFinishParts,
        List.filterMap_cons, List.map_cons, List.sum_cons]

/-- `calculate_total_cost` in reference form: assistant costs plus
step-finish costs. -/
theorem calculate_total_cost_eq (messages : List MessageOrPart) :
    calculate_total_cost messages =
      ((extract_assistant_messages messages).map (fun m => m.cost)).sum +
      ((stepFinishParts messages).map (fun p => p.cost)).sum := by
  have h := foldl_two_kind_sum (fun m => m.cost) (fun p => p.cost) messages 0
  rw [calculate_total_cost]
  rw [h, zero_add]

/-- `calculate_total_tokens` with an explicit accumulator. -/
theorem calculate_total_tokens_go (messages : List MessageOrPart) : ∀ acc : Tokens,
    messages.foldl
      (fun t item =>
        match item with
        | .assistant m =>
          ⟨t.input + m.tokens.input, t.output + m.tokens.output,
           t.reasoning + m.tokens.reasoning,
           ⟨t.cache.read + m.tokens.cache.read, t.cache.write + m.tokens.cache.write⟩⟩
        | .part (.stepFinish p) =>
          ⟨t.input + p.tokens.input, t.output + p.tokens.output,
           t.reasoning + p.tokens.reasoning,
           ⟨t.cache.read + p.tokens.cache.read, t.cache.write + p.tokens.cache.write⟩⟩
        | _ => t)
      acc =
    ⟨acc.input + ((extract_assistant_messages messages).map (fun m => m.tokens.input)).sum +
       ((stepFinishParts messages).map (fun p => p.tokens.input)).sum,
     acc.output + ((extract_assistant_messages messages).map (fun m => m.tokens.output)).sum +
       ((stepFinishParts messages).map (fun p => p.tokens.output)).sum,
     acc.reasoning +
       ((extract_assistant_messages messages).map (fun m => m.tokens.reasoning)).sum +
       ((stepFinishParts messages).map (fun p => p.tokens.reasoning)).sum,
     ⟨acc.cache.read +
        ((extract_assistant_messages messages).map (fun m => m.tokens.cache.read)).sum +
        ((stepFinishParts messages).map (fun p => p.tokens.cache.read)).sum,
      acc.cache.write +
        ((extract_assistant_messages messages).map (fun m => m.tokens.cache.write)).sum +
        ((stepFinishParts messages).map (fun p => p.tokens.cache.write)).sum⟩⟩ := by
  induction messages with
  | nil =>
    intro acc
    simp only [List.foldl_nil, extract_assistant_messages, stepFinishParts,
      List.filterMap_nil, List.map_nil, List.sum_nil, add_zero]
  | cons x rest ih =>
    intro acc
    rcases x with m | m | p | d
    · simp only [List.foldl_cons, ih, extract_assistant_messages, stepFinishParts,
        List.filterMap_cons, List.map_cons, List.sum_cons]
    · simp only [List.foldl_cons, ih, extract_assistant_messages, stepFinishParts,
        List.filterMap_cons, List.map_cons, List.sum_cons]
      simp only [Tokens.mk.injEq, CacheTokens.mk.injEq]
      refine ⟨by ring, by ring, by ring, by ring, by ring⟩
    · rcases p with p | p | p | p | p | p | p | p | p <;>
        simp only [List.foldl_cons, ih, extract_assistant_messages, stepFinishParts,
          List.filterMap_cons, List.map_cons, List.sum_cons]
      all_goals
        simp only [Tokens.mk.injEq, CacheTokens.mk.injEq]
        refine ⟨by ring, by ring, by ring, by ring, by ring⟩
    · simp only [List.foldl_cons, ih, extract_assistant_messages, stepFinishParts,
        List.filterMap_cons, List.map_cons, List.sum_cons]

/-- `calculate_total_tokens` in reference form: the elementwise sum over
assistant messages and step-finish parts. -/
theorem calculate_total_tokens_eq (messages : List MessageOrPart) :
    calculate_total_tokens messages =
      ⟨((extract_assistant_messages messages).map (fun m => m.tokens.input)).sum +
         ((stepFinishParts messages).map (fun p => p.tokens.input)).sum,
       ((extract_assistant_messages messages).map (fun m => m.tokens.output)).sum +
         ((stepFinishParts messages).map (fun p => p.tokens.output)).sum,
       ((extract_assistant_messages messages).map (fun m => m.tokens.reasoning)).sum +
         ((stepFinishParts messages).map (fun p => p.tokens.reasoning)).sum,
       ⟨((extract_assistant_messages messages).map (fun m => m.tokens.cache.read)).sum +
          ((stepFinishParts messages).map (fun p => p.tokens.cache.read)).sum,
        ((extract_assistant_messages messages).map (fun m => m.tokens.cache.write)).sum +
          ((stepFinishParts messages).map (fun p => p.tokens.cache.write)).sum⟩⟩ := by
  rw [calculate_total_tokens]
  rw [calculate_total_tokens_go messages ⟨0, 0, 0, ⟨0, 0⟩⟩]
  simp

/-- Claim C5: the session's cost total sums `cost` over every assistant
message and every step-finish part; `per_message` divides by
`max(assistant_count, 1)`; the token rollup is the elementwise sum over the
same two record kinds; and `tokens.total` is `input + output + reasoning`,
excluding the cache fields. -/
theorem claim_C5_cost_token_rollups (s : OpencodeRunSessionData) :
    (get_session_statistics s).cost.total =
      ((extract_assistant_messages s.messages).map (fun m => m.cost)).sum +
      ((stepFinishParts s.messages).map (fun p => p.cost)).sum ∧
    (get_session_statistics s).cost.per_message =
      (get_session_statistics s).cost.total /
        (max (extract_assistant_messages s.messages).length 1 : ℚ) ∧
    (get_session_statistics s).tokens.input =
      ((extract_assistant_messages s.messages).map (fun m => m.tokens.input)).sum +
      ((stepFinishParts s.messages).map (fun p => p.tokens.input)).sum ∧
    (get_session_statistics s).tokens.output =
      ((extract_assistant_messages s.messages).map (fun m => m.tokens.output)).sum +
      ((stepFinishParts s.messages).map (fun p => p.tokens.output)).sum ∧
    (get_session_statistics s).tokens.reasoning =
      ((extract_assistant_messages s.messages).map (fun m => m.tokens.reasoning)).sum +
      ((stepFinishParts s.messages).map (fun p => p.tokens.reasoning)).sum ∧
    (get_session_statistics s).tokens.cache_read =
      ((extract_assistant_messages s.messages).map (fun m => m.tokens.cache.read)).sum +
      ((stepFinishParts s.messages).map (fun p => p.tokens.cache.read)).sum ∧
    (get_session_statistics s).tokens.cache_write =
      ((extract_assistant_messages s.messages).map (fun m => m.tokens.cache.write)).sum +
      ((stepFinishParts s.messages).map (fun p => p.tokens.cache.write)).sum ∧
    (get_session_statistics s).tokens.total =
      (get_session_statistics s).tokens.input + (get_session_statistics s).tokens.output +
        (get_session_statistics s).tokens.reasoning := by
  refine ⟨?_, ?_, ?_, ?_, ?_, ?_, ?_, ?_⟩ <;>
    simp only [get_session_statistics, calculate_total_cost_eq, calculate_total_tokens_eq]

/-- The three extract queries partition the record count. -/
theorem extract_length_partition (msgs : List MessageOrPart) :
    msgs.length = (extract_assistant_messages msgs).length +
      (extract_user_messages msgs).length + (extract_parts msgs).length := by
  induction msgs with
  | nil => rfl
  | cons x rest ih =>
    rcases x with m | m | p | d <;>
      simp [extract_assistant_messages, extract_user_messages, extract_parts,
        List.filterMap_cons, List.filter_cons] at ih ⊢ <;>
      omega

/-- Claim C10: `extract_assistant_messages`, `extract_user_messages` and
`extract_parts` partition every record list — each output preserves input
order (is a sublist), every element lands in exactly one output, the
lengths add up — and consequently `counts.total_items` equals
`assistant_messages + user_messages + message_parts` in every computed
`SessionStatistics`. -/
theorem claim_C10_extract_partition :
    (∀ msgs : List MessageOrPart,
      ((extract_assistant_messages msgs).map MessageOrPart.assistant).Sublist msgs ∧
      ((extract_user_messages msgs).map MessageOrPart.user).Sublist msgs ∧
      (extract_parts msgs).Sublist msgs ∧
      msgs.length = (extract_assistant_messages msgs).length +
        (extract_user_messages msgs).length + (extract_parts msgs).length ∧
      ∀ x ∈ msgs,
        (∃ m, x = MessageOrPart.assistant m ∧ m ∈ extract_assistant_messages msgs) ∨
        (∃ m, x = MessageOrPart.user m ∧ m ∈ extract_user_messages msgs) ∨
        (x ∈ extract_parts msgs ∧ (∀ m, x ≠ MessageOrPart.assistant m) ∧
          (∀ m, x ≠ MessageOrPart.user m))) ∧
    (∀ s : OpencodeRunSessionData,
      (get_session_statistics s).counts.total_items =
        (get_session_statistics s).counts.assistant_messages +
        (get_session_statistics s).counts.user_messages +
        (get_session_statistics s).counts.message_parts) := by
  constructor
  · intro msgs
    refine ⟨?_, ?_, ?_, extract_length_partition msgs, ?_⟩
    · refine map_filterMap_sublist _ _ ?_ msgs
      intro a b hab
      cases a <;> simp_all
    · refine map_filterMap_sublist _ _ ?_ msgs
      intro a b hab
      cases a <;> simp_all
    · exact List.filter_sublist msgs
    · intro x hx
      rcases x with m | m | p | d
      · refine Or.inr (Or.inl ⟨m, rfl, List.mem_filterMap.mpr ⟨_, hx, rfl⟩⟩)
      · exact Or.inl ⟨m, rfl, List.mem_filterMap.mpr ⟨_, hx, rfl⟩⟩
      · refine Or.inr (Or.inr ⟨List.mem_filter.mpr ⟨hx, rfl⟩, ?_, ?_⟩) <;>
          intro m h <;> exact MessageOrPart.noConfusion h
      · refine Or.inr (Or.inr ⟨List.mem_filter.mpr ⟨hx, rfl⟩, ?_, ?_⟩) <;>
          intro m h <;> exact MessageOrPart.noConfusion h
  · intro s
    simp only [get_session_statistics]
    exact extract_length_partition s.messages

/-! ## Parser error handling -/

/-- Claim C4: a record with neither `role` nor `type` is a fatal parse
error, and a recognized `type` whose shape validation fails propagates the
decode error to the caller — in neither case is the record silently dropped
or coerced. -/
theorem claim_C4_parse_fatal_errors :
    (∀ d : RawDict, jlookup ("role") d = none → jlookup ("type") d = none →
      parse_message_or_part d = .error .noRoleOrType) ∧
    (∀ (d : RawDict) (s : String) (f : RawDict → Except DecodeErr MessagePart)
        (e : DecodeErr),
      jlookup ("role") d = none → jlookup ("type") d = some (.str s) →
      partValidators s = some f → f d = .error e →
      parse_message_or_part d = .error e) := by
  constructor
  · intro d h1 h2
    simp only [parse_message_or_part, h1, h2]
  · intro d s f e h1 h2 hf hfd
    simp only [parse_message_or_part, h1, h2, hf, hfd, Except.map_error]

/-- Claim C8: a record with an out-of-range `role` value or an unrecognized
`type` value is kept as an opaque raw record (non-fatally), and raw records
are excluded from both typed message queries while remaining in the part
stream. -/
theorem claim_C8_raw_records_stay_raw :
    (∀ (d : RawDict) (v : JValue), jlookup ("role") d = some v →
      v ≠ .str ("user") → v ≠ .str ("assistant") →
      parse_message_or_part d = .ok (.raw d)) ∧
    (∀ (d : RawDict) (v : JValue), jlookup ("role") d = none →
      jlookup ("type") d = some v → (∀ s : String, v = .str s → partValidators s = none) →
      parse_message_or_part d = .ok (.raw d)) ∧
    (∀ (msgs : List MessageOrPart) (d : RawDict),
      MessageOrPart.raw d ∉ (extract_assistant_messages msgs).map MessageOrPart.assistant ∧
      MessageOrPart.raw d ∉ (extract_user_messages msgs).map MessageOrPart.user ∧
      (MessageOrPart.raw d ∈ msgs → MessageOrPart.raw d ∈ extract_parts msgs)) := by
  refine ⟨?_, ?_, ?_⟩
  · intro d v h hne1 hne2
    cases v with
    | str r =>
      have hr1 : r ≠ ("user") := fun hc => hne1 (by rw [hc])
      have hr2 : r ≠ ("assistant") := fun hc => hne2 (by rw [hc])
      simp only [parse_message_or_part, h, if_neg hr1, if_neg hr2]
    | int n => simp only [parse_message_or_part, h]
    | num q => simp only [parse_message_or_part, h]
    | bool b => simp only [parse_message_or_part, h]
    | null => simp only [parse_message_or_part, h]
    | arr items => simp only [parse_message_or_part, h]
    | obj fields => simp only [parse_message_or_part, h]
  · intro d v h1 h2 hv
    cases v with
    | str r =>
      have hr := hv r rfl
      simp only [parse_message_or_part, h1, h2, hr]
    | int n => simp only [parse_message_or_part, h1, h2]
    | num q => simp only [parse_message_or_part, h1, h2]
    | bool b => simp only [parse_message_or_part, h1, h2]
    | null => simp only [parse_message_or_part, h1, h2]
    | arr items => simp only [parse_message_or_part, h1, h2]
    | obj fields => simp only [parse_message_or_part, h1, h2]
  · intro msgs d
    refine ⟨?_, ?_, ?_⟩
    · intro hc
      rcases List.mem_map.mp hc with ⟨m, _, hm⟩
      exact MessageOrPart.noConfusion hm
    · intro hc
      rcases List.mem_map.mp hc with ⟨m, _, hm⟩
      exact MessageOrPart.noConfusion hm
    · intro hm
      exact List.mem_filter.mpr ⟨hm, rfl⟩

/-- Claim C9: the tool-call scan returns the `{tool, state}` view of
exactly the tool parts whose state is `completed` — a view with a given
tool name and completed state is produced iff such a tool part is in the
list, and tool parts in any other state produce nothing. -/
theorem claim_C9_extract_tool_calls (msgs : List MessageOrPart) (t : String)
    (c : ToolStateCompleted) :
    ToolCallView.mk t c ∈ extract_tool_calls msgs ↔
      ∃ (i : String) (sid mid : Option String) (cid : String),
        MessageOrPart.part (.tool ⟨i, sid, mid, cid, t, .completed c⟩) ∈ msgs := by
  constructor
  · intro h
    rcases List.mem_filterMap.mp h with ⟨item, hmem, hf⟩
    rcases item with m | m | p | d
    · simp [extract_tool_calls] at hf
    · simp [extract_tool_calls] at hf
    · rcases p with tp | tp | tp | tp | tp | tp | tp | tp | tp
      case tool =>
        rcases tp with ⟨i, sid, mid, cid, tool, st⟩
        rcases st with _ | ⟨inp, ti, md, tm⟩ | cst | ⟨inp, er, md, tm⟩
        · simp at hf
        · simp at hf
        · simp only [Option.some.injEq, ToolCallView.mk.injEq] at hf
          rcases hf with ⟨rfl, rfl⟩
          exact ⟨i, sid, mid, cid, hmem⟩
        · simp at hf
      all_goals simp at hf
    · simp [extract_tool_calls] at hf
  · rintro ⟨i, sid, mid, cid, hmem⟩
    exact List.mem_filterMap.mpr ⟨_, hmem, rfl⟩

/-! ## Diff/access correlator lemmas -/

/-- A successful `find?` splits the list: everything before the hit fails
the predicate, so the hit is the first match. -/
theorem find?_eq_some_split {α : Type} (p : α → Bool) (l : List α) (a : α)
    (h : l.find? p = some a) :
    p a = true ∧ ∃ pre post, l = pre ++ a :: post ∧ ∀ b ∈ pre, p b = false := by
  induction l with
  | nil => simp [List.find?] at h
  | cons x rest ih =>
    cases hpx : p x with
    | true =>
      rw [List.find?_cons_of_pos _ hpx] at h
      rcases Option.some.inj h with rfl
      exact ⟨hpx, [], rest, rfl, by simp⟩
    | false =>
      rw [List.find?_cons_of_neg _ (by simp [hpx])] at h
      rcases ih h with ⟨hpa, pre, post, hsplit, hpre⟩
      refine ⟨hpa, x :: pre, post, by rw [hsplit]; rfl, ?_⟩
      intro b hb
      rcases List.mem_cons.mp hb with rfl | hb
      · exact hpx
      · exact hpre b hb

/-- The correlator loop in closed form: first match per diff path, in diff
order. -/
theorem find_matching_eq_filterMap (dps fao : List (List Char)) :
    find_matching_worktree_paths dps fao =
      dps.filterMap
        (fun dp => fao.find? fun ap => containsSubL worktreesMarker ap && endsWithL dp ap) := by
  induction dps with
  | nil => rfl
  | cons dp rest ih =>
    cases h : fao.find? (fun ap => containsSubL worktreesMarker ap && endsWithL dp ap) with
    | none => simp [find_matching_worktree_paths, h, ih, List.filterMap_cons]
    | some ap => simp [find_matching_worktree_paths, h, ih, List.filterMap_cons]

/-- Claim C7: the correlator returns, per diff path in order, the first
access entry that contains `/worktrees/` and ends with the diff path (at
most one per diff path), and the concrete header/access scenario yields
exactly the expected worktree path. -/
theorem claim_C7_diff_access_correlation :
    (∀ dps fao : List (List Char),
      find_matching_worktree_paths dps fao =
        dps.filterMap
          (fun dp => fao.find? fun ap => containsSubL worktreesMarker ap && endsWithL dp ap)) ∧
    (∀ (fao : List (List Char)) (dp ap : List Char),
      fao.find? (fun x => containsSubL worktreesMarker x && endsWithL dp x) = some ap →
      (containsSubL worktreesMarker ap && endsWithL dp ap) = true ∧
      ∃ pre post, fao = pre ++ ap :: post ∧
        ∀ b ∈ pre, (containsSubL worktreesMarker b && endsWithL dp b) = false) ∧
    parse_diff_file_paths (("diff --git a/src/foo.py b/src/foo.py").toList) =
      [("src/foo.py").toList] ∧
    find_matching_worktree_paths
        (parse_diff_file_paths (("diff --git a/src/foo.py b/src/foo.py").toList))
        [("/repo/worktrees/x/src/foo.py").toList, ("/repo/worktrees/x/src/bar.py").toList] =
      [("/repo/worktrees/x/src/foo.py").toList] := by
  refine ⟨find_matching_eq_filterMap, ?_, ?_, ?_⟩
  · intro fao dp ap h
    exact find?_eq_some_split _ fao ap h
  · rfl
  · rfl

/-! ## Helper lemmas: logarithm bounds for the tool-proportion pipeline -/

/-- Series bounds for `log (5/4)`. -/
theorem log54_bounds : (0.22266 : ℝ) < Real.log (5/4) ∧ Real.log (5/4) < (0.22347 : ℝ) := by
  have h := Real.abs_log_sub_add_sum_range_le (x := (1/5 : ℝ))
    (by rw [abs_of_pos]; norm_num; norm_num) 4
  have hsum : (∑ i ∈ Finset.range 4, (1/5 : ℝ) ^ (i + 1) / (i + 1)) = 1673/7500 := by
    simp [Finset.sum_range_succ]
    norm_num
  have hlog : Real.log (1 - 1/5) = - Real.log (5/4) := by
    rw [show (1 - 1/5 : ℝ) = (5/4)⁻¹ by norm_num, Real.log_inv]
  rw [hsum, hlog] at h
  have herr : |(1/5 : ℝ)| ^ (4 + 1) / (1 - |(1/5 : ℝ)|) = 1/2500 := by
    rw [abs_of_pos (by norm_num : (0:ℝ) < 1/5)]
    norm_num
  rw [herr] at h
  rw [abs_le] at h
  constructor <;> nlinarith [h.1, h.2]

/-- Bounds for `log 10 = 3 log 2 + log (5/4)`. -/
theorem log10_bounds : (2.3021 : ℝ) < Real.log 10 ∧ Real.log 10 < (2.30292 : ℝ) := by
  have h2lo := Real.log_two_gt_d9
  have h2hi := Real.log_two_lt_d9
  have h54 := log54_bounds
  have h10 : Real.log 10 = 3 * Real.log 2 + Real.log (5/4) := by
    rw [show (10:ℝ) = 2^3 * (5/4) by norm_num,
      Real.log_mul (by norm_num) (by norm_num), Real.log_pow]
    push_cast
    ring
  rw [h10]
  constructor <;> linarith [h54.1, h54.2]

/-- Bounds for `log 2 / log 10 = log10(2)`, wide enough for every 3-decimal
rounding decision below. -/
theorem logRatio_bounds : (0.30075 : ℝ) < Real.log 2 / Real.log 10 ∧
    Real.log 2 / Real.log 10 < (0.30125 : ℝ) := by
  have h2lo := Real.log_two_gt_d9
  have h2hi := Real.log_two_lt_d9
  have h10 := log10_bounds
  have hpos : (0:ℝ) < Real.log 10 := by linarith [h10.1]
  constructor
  · rw [lt_div_iff₀ hpos]
    nlinarith [h10.2]
  · rw [div_lt_iff₀ hpos]
    nlinarith [h10.1]

/-- `log10 4` in terms of the ratio constant. -/
theorem logb_four_eq : Real.logb 10 4 = 2 * (Real.log 2 / Real.log 10) := by
  rw [Real.logb, show (4:ℝ) = 2^2 by norm_num, Real.log_pow]
  push_cast
  ring

/-- `log10 20` in terms of the ratio constant. -/
theorem logb_twenty_eq : Real.logb 10 20 = 1 + Real.log 2 / Real.log 10 := by
  have h10 := log10_bounds
  have hne : Real.log 10 ≠ 0 := by
    intro hc
    rw [hc] at h10
    exact absurd h10.1 (by norm_num)
  rw [Real.logb, show (20:ℝ) = 10 * 2 by norm_num,
    Real.log_mul (by norm_num) (by norm_num), add_div, div_self hne]

/-- `log10 25` in terms of the ratio constant. -/
theorem logb_twentyfive_eq : Real.logb 10 25 = 2 - 2 * (Real.log 2 / Real.log 10) := by
  have h10 := log10_bounds
  have hne : Real.log 10 ≠ 0 := by
    intro hc
    rw [hc] at h10
    exact absurd h10.1 (by norm_num)
  rw [Real.logb, show (25:ℝ) = 10^2 / 2^2 by norm_num,
    Real.log_div (by norm_num) (by norm_num), Real.log_pow, Real.log_pow]
  push_cast
  field_simp

/-- `round(log10(4), 3) = 0.602`. -/
theorem pyRound3_logb_four : pyRound 3 (Real.logb 10 4) = 301/500 := by
  have hL := logRatio_bounds
  have hlo : ((602:ℤ):ℝ) - 1/2 < Real.logb 10 4 * 10^3 := by
    rw [logb_four_eq]
    push_cast
    nlinarith [hL.1]
  have hhi : Real.logb 10 4 * 10^3 < ((602:ℤ):ℝ) + 1/2 := by
    rw [logb_four_eq]
    push_cast
    nlinarith [hL.2]
  rw [pyRound_eq_of 3 602 _ hlo hhi]
  norm_num

/-- `round(log10(20), 3) = 1.301`. -/
theorem pyRound3_logb_twenty : pyRound 3 (Real.logb 10 20) = 1301/1000 := by
  have hL := logRatio_bounds
  have hlo : ((1301:ℤ):ℝ) - 1/2 < Real.logb 10 20 * 10^3 := by
    rw [logb_twenty_eq]
    push_cast
    nlinarith [hL.1]
  have hhi : Real.logb 10 20 * 10^3 < ((1301:ℤ):ℝ) + 1/2 := by
    rw [logb_twenty_eq]
    push_cast
    nlinarith [hL.2]
  rw [pyRound_eq_of 3 1301 _ hlo hhi]
  norm_num

/-- `round(log10(25), 3) = 1.398`. -/
theorem pyRound3_logb_twentyfive : pyRound 3 (Real.logb 10 25) = 699/500 := by
  have hL := logRatio_bounds
  have hlo : ((1398:ℤ):ℝ) - 1/2 < Real.logb 10 25 * 10^3 := by
    rw [logb_twentyfive_eq]
    push_cast
    nlinarith [hL.2]
  have hhi : Real.logb 10 25 * 10^3 < ((1398:ℤ):ℝ) + 1/2 := by
    rw [logb_twentyfive_eq]
    push_cast
    nlinarith [hL.1]
  rw [pyRound_eq_of 3 1398 _ hlo hhi]
  norm_num

/-- `tools_used` at the concrete dict: `round(100, 1) = 100`. -/
theorem tools_used_dEx : tools_used_of dEx = 100 := by
  have hsum : dvalsSum dEx = 100 := by norm_num [dvalsSum, dEx]
  rw [tools_used_of, hsum, pyRound_eq_of 1 1000 (100:ℚ) (by norm_num) (by norm_num)]
  norm_num

/-- The rounded log-proportions at the concrete dict. -/
theorem tool_proportions_log_dEx :
    tool_proportions_log_of dEx = some tplEx := by
  have htu := tools_used_dEx
  rw [tool_proportions_log_of, if_neg (by rw [htu]; norm_num)]
  simp only [htu]
  simp only [dEx, tplEx, List.map_cons, List.map_nil]
  norm_num [pyRound3_logb_four, pyRound3_logb_twenty, pyRound3_logb_twentyfive]

/-- The renormalized tool proportions at the concrete dict. -/
theorem tool_proportions_dEx :
    tool_proportions_of dEx = some outEx := by
  rw [tool_proportions_of, tool_proportions_log_dEx, Option.some_bind]
  have hS : dvalsSum tplEx = 7301/1000 := by
    norm_num [dvalsSum, tplEx]
  simp only [hS]
  rw [if_neg (by norm_num)]
  have h82 : pyRound 1 ((301/500 : ℚ) / (7301/1000) * 100) = 41/5 := by
    rw [pyRound_eq_of 1 82 _ (by norm_num) (by norm_num)]
    norm_num
  have h178 : pyRound 1 ((1301/1000 : ℚ) / (7301/1000) * 100) = 89/5 := by
    rw [pyRound_eq_of 1 178 _ (by norm_num) (by norm_num)]
    norm_num
  have h191 : pyRound 1 ((699/500 : ℚ) / (7301/1000) * 100) = 191/10 := by
    rw [pyRound_eq_of 1 191 _ (by norm_num) (by norm_num)]
    norm_num
  simp only [tplEx, outEx, List.map_cons, List.map_nil, h82, h178, h191]

/-- Claim C1 counterexample: for the dict {read:3, grep:3, glob:3, edit:19,
write:24, bash:24, todowrite:24} (no `invalid` key, every count positive),
the 1-decimal-rounded renormalized tool proportions are
{8.2, 8.2, 8.2, 17.8, 19.1, 19.1, 19.1}, summing to 99.7 — off from 100 by
0.3, violating the claimed 0.1 tolerance. -/
theorem claim_C1_counterexample :
    dropInvalid dEx = dEx ∧
    ((("read"), (3:ℚ)) ∈ dEx ∧ (0:ℚ) < 3) ∧
    (tool_proportions_of dEx).map dvalsSum = some (997/10) ∧
    ¬(|(997/10 : ℚ) - 100| ≤ 1/10) := by
  refine ⟨by simp [dropInvalid, dEx], ⟨by simp [dEx], by norm_num⟩, ?_, ?_⟩
  · rw [tool_proportions_dEx]
    norm_num [dvalsSum, outEx]
  · rw [show (997/10 : ℚ) - 100 = -(3/10) by norm_num, abs_neg,
      abs_of_pos (by norm_num : (0:ℚ) < 3/10)]
    norm_num

/-- Constant-multiple sums. -/
theorem sum_map_mul_const (ws : List ℚ) (c : ℚ) :
    (ws.map (fun w => w * c)).sum = ws.sum * c := by
  induction ws with
  | nil => simp
  | cons w rest ih =>
    simp only [List.map_cons, List.sum_cons, ih]
    ring

/-- Before the final rounding, the renormalized values sum to exactly
100. -/
theorem sum_exact_norm (ws : List ℚ) (hS : ws.sum ≠ 0) :
    (ws.map (fun w => w / ws.sum * 100)).sum = 100 := by
  have hfun : (fun w => w / ws.sum * 100) = (fun w => w * (100 / ws.sum)) := by
    funext w
    ring
  rw [hfun, sum_map_mul_const]
  field_simp

/-- Rounding each renormalized value to one decimal moves the sum by at
most `1/20` per entry. -/
theorem abs_sum_pyRound_sub (ws : List ℚ) (S : ℚ) :
    |(ws.map (fun w => pyRound 1 (w / S * 100))).sum -
      (ws.map (fun w => w / S * 100)).sum| ≤ (ws.length : ℚ) / 20 := by
  induction ws with
  | nil => simp
  | cons w rest ih =>
    simp only [List.map_cons, List.sum_cons, List.length_cons]
    have h1 := abs_pyRound_one_sub_le (w / S * 100)
    have hsplit : pyRound 1 (w / S * 100) + (rest.map (fun x => pyRound 1 (x / S * 100))).sum -
        (w / S * 100 + (rest.map (fun x => x / S * 100)).sum) =
        ((pyRound 1 (w / S * 100) : ℚ) - w / S * 100) +
        ((rest.map (fun x => pyRound 1 (x / S * 100))).sum -
          (rest.map (fun x => x / S * 100)).sum) := by
      ring
    rw [hsplit]
    have htri := abs_add ((pyRound 1 (w / S * 100) : ℚ) - w / S * 100)
      ((rest.map (fun x => pyRound 1 (x / S * 100))).sum -
        (rest.map (fun x => x / S * 100)).sum)
    push_cast
    push_cast at ih
    linarith

/-- Claim C1 (amended): whenever the pipeline produces tool proportions
(i.e. the rounded-log sum is nonzero), each tool's value is
`round(100 * r_k / Σ r, 1)` where `r_k = round(log10(100 v_k / round(T,1)
+ 1), 3)` — the normalization divides by the sum of the *rounded* log
values — and the values sum to 100 within `0.05 · n` for `n` tools (not
within 0.1 in general). -/
theorem claim_C1_amended (d tpl out : Dict String)
    (h1 : tool_proportions_log_of d = some tpl)
    (h2 : tool_proportions_of d = some out) :
    out = tpl.map (fun kv => (kv.1, pyRound 1 (kv.2 / dvalsSum tpl * 100))) ∧
    |dvalsSum out - 100| ≤ (d.length : ℚ) / 20 := by
  rw [tool_proportions_of, h1, Option.some_bind] at h2
  by_cases hS : dvalsSum tpl = 0
  · rw [if_pos hS] at h2
    exact Option.noConfusion h2
  · rw [if_neg hS] at h2
    have hout := (Option.some.inj h2).symm
    have hlen : tpl.length = d.length := by
      rw [tool_proportions_log_of] at h1
      by_cases htu : tools_used_of d = 0
      · rw [if_pos htu] at h1
        exact Option.noConfusion h1
      · rw [if_neg htu] at h1
        have hh := Option.some.inj h1
        rw [← hh, List.length_map]
    refine ⟨hout, ?_⟩
    rw [hout]
    have hd : dvalsSum (tpl.map (fun kv => (kv.1, pyRound 1 (kv.2 / dvalsSum tpl * 100)))) =
        ((tpl.map Prod.snd).map (fun w => pyRound 1 (w / dvalsSum tpl * 100))).sum := by
      rw [dvalsSum, List.map_map, List.map_map]
      rfl
    rw [hd]
    have hws : dvalsSum tpl = (tpl.map Prod.snd).sum := rfl
    have hex : ((tpl.map Prod.snd).map (fun w => w / dvalsSum tpl * 100)).sum = 100 := by
      simp only [hws]
      exact sum_exact_norm (tpl.map Prod.snd) (by rw [← hws]; exact hS)
    have habs := abs_sum_pyRound_sub (tpl.map Prod.snd) (dvalsSum tpl)
    rw [hex, List.length_map, hlen] at habs
    exact habs

/-- Witness for the amended C1 statement at the concrete dict `dEx`. -/
theorem claim_C1_amended_witness :
    outEx = tplEx.map (fun kv => (kv.1, pyRound 1 (kv.2 / dvalsSum tplEx * 100))) ∧
    |dvalsSum outEx - 100| ≤ (dEx.length : ℚ) / 20 :=
  claim_C1_amended dEx tplEx outEx tool_proportions_log_dEx tool_proportions_dEx
